import Mathlib

/-!
Verification of the etcd robustness-testing triad: the cross-member hash
consistency verifier (`CheckHashKV`), the watch-completeness checker
(`ClusterKVHashChecks` / `checkKVHash`), and the rafthttp fault-injection
stream wrappers (`hijackedReadCloser`, `hijackedResponseWriter`).

Each Go function is shallowly embedded as an executable Lean definition;
theorems at the end of the file settle the spec claims against them.
-/

deriving instance DecidableEq for Except

/-- Result of a Go `error` value: `none` is `nil`, `some` carries the error.
`eof` models `io.EOF`; `msg` models any other error value. -/
inductive GoErr where
  | eof
  | msg (s : String)
deriving DecidableEq, Repr

/-- A `clientv3.HashKVResponse` restricted to the fields the checkers read:
`Hash` (uint32, modeled as `Nat`), `HashRevision`, `CompactRevision`, and
`Header.Revision` (int64, modeled as `Int`; no overflow is exercised). -/
structure HashKVResp where
  hash : Nat
  hashRevision : Int
  compactRevision : Int
  headerRevision : Int
deriving DecidableEq, Repr, Inhabited

/-- The ways a hash-consistency pass aborts.  `rpc` models a propagated
client/RPC error (`require.NoError` failing, or an error return);
`revisionMismatch` is the `"max revision between nodes should be the same"`
error of part_000 line 57; the three mismatch constructors are the
comparison-loop failures naming the disagreeing field. -/
inductive CheckErr where
  | rpc (e : GoErr)
  | revisionMismatch (want got : Int)
  | hashRevisionMismatch
  | compactRevisionMismatch
  | hashMismatch
deriving DecidableEq, Repr

namespace Rafthttp

/-- Abstract model of a Go `io.ReadCloser`.  A `read` call takes the length
of the caller's buffer `p` and the reader's state, and returns the bytes it
placed in `p` (so the Go return count `n` is the length of that list), the
returned error, and the advanced state.  `close` returns the close error and
the final state. -/
structure ReaderModel (σ : Type) where
  read : Nat → σ → (List Nat × Option GoErr) × σ
  close : σ → Option GoErr × σ

/-- Abstract model of a Go `http.ResponseWriter`.  `write` takes the bytes
and the writer state and returns the Go `(n, err)` pair and the new state;
`writeHeader` records a status code; `flusher` is the underlying
`http.Flusher` capability when the concrete writer implements it. -/
structure WriterModel (ω : Type) where
  write : List Nat → ω → (Nat × Option GoErr) × ω
  writeHeader : Int → ω → ω
  flusher : Option (ω → ω)

/-- Embeds `discardReadData` (part_005 lines 50-57): issue one `Read` on the
underlying stream with a fresh buffer of the same length, discard whatever
bytes it produced, and return count 0 together with the original error. -/
def discardReadData {σ : Type} (rc : ReaderModel σ) (n : Nat) (s : σ) :
    (List Nat × Option GoErr) × σ :=
  let r := rc.read n s
  (([], r.1.2), r.2)

/-- Embeds `hijackedReadCloser.Read` (part_005 lines 26-34).  `armed` is the
state of the `DemoDropRequestBodyFailPoint` gofail hook: armed, the body is
`return discardReadData(h.originalReadCloser, p)`, which dereferences the
original reader, so an absent reader is a runtime panic, modeled as `none`.
Disarmed, a `nil` original reader yields `(0, nil)` and otherwise the call
delegates. -/
def hijackedRead {σ : Type} (armed : Bool) (orig : Option (ReaderModel σ))
    (n : Nat) (s : σ) : Option ((List Nat × Option GoErr) × σ) :=
  if armed then
    match orig with
    | none => none
    | some rc => some (discardReadData rc n s)
  else
    match orig with
    | none => some (([], none), s)
    | some rc => some (rc.read n s)

/-- Embeds `hijackedReadCloser.Close` (part_005 lines 36-41): `nil` original
reader returns `nil`, otherwise delegate. -/
def hijackedClose {σ : Type} (orig : Option (ReaderModel σ)) (s : σ) :
    Option GoErr × σ :=
  match orig with
  | none => (none, s)
  | some rc => rc.close s

/-- Embeds `discardWriteData` (hijackedWriter.go lines 62-64). -/
def discardWriteData (p : List Nat) : Nat × Option GoErr :=
  (0, none)

/-- Embeds `hijackedResponseWriter.Write` (hijackedWriter.go lines 29-38).
`armed` is the `HijackResponseWriterFailPoint` gofail hook: armed, the body
is `return discardWriteData(p)` and the underlying writer is untouched.
Disarmed, a `nil` original writer yields `(0, nil)`, else delegate. -/
def hijackedWrite {ω : Type} (armed : Bool) (orig : Option (WriterModel ω))
    (p : List Nat) (w : ω) : (Nat × Option GoErr) × ω :=
  if armed then
    (discardWriteData p, w)
  else
    match orig with
    | none => ((0, none), w)
    | some rw => rw.write p w

/-- Embeds `hijackedResponseWriter.WriteHeader` (hijackedWriter.go lines
40-49).  `armed` is the `HijackResponseWriterHeaderFailPoint` gofail hook:
armed, the method returns immediately.  Disarmed, a `nil` original writer is
a no-op, else delegate. -/
def hijackedWriteHeader {ω : Type} (armed : Bool) (orig : Option (WriterModel ω))
    (code : Int) (w : ω) : ω :=
  if armed then
    w
  else
    match orig with
    | none => w
    | some rw => rw.writeHeader code w

/-- Embeds `hijackedResponseWriter.Flush` (hijackedWriter.go lines 51-53):
`h.originalResponseWriter.(http.Flusher).Flush()` with no failpoint and no
nil check; an absent writer or a failed `http.Flusher` type assertion is a
runtime panic, modeled as `none`. -/
def hijackedFlush {ω : Type} (orig : Option (WriterModel ω)) (w : ω) :
    Option ω :=
  match orig with
  | none => none
  | some rw =>
    match rw.flusher with
    | none => none
    | some f => some (f w)

end Rafthttp

namespace Part005

/-- The mutable local state of one `checkKVHash` worker (part_005 lines
136-138): `maxRevision` (initially 0, meaning never set), `lastRevision`
(initially 1), and whether the worker has called its own `cancel()`. -/
structure WorkerState where
  maxRevision : Int
  lastRevision : Int
  cancelRequested : Bool
deriving DecidableEq, Repr

/-- Initial worker state: `var maxRevision int64` (zero value) and
`var lastRevision int64 = 1` (part_005 lines 136-137). -/
def initWorkerState : WorkerState :=
  { maxRevision := 0, lastRevision := 1, cancelRequested := false }

/-- The `t.Errorf` reports a worker can emit: lines 147, 150 and 178 of
part_005. -/
inductive WorkerViolation where
  | maxRevisionNotSet
  | revisionGap (got expected : Int)
  | watchError
deriving DecidableEq, Repr

/-- A value received on the watch channel, restricted to the fields
`checkKVHash` reads: `resp.Err() != nil`, `resp.Canceled`,
`resp.CompactRevision`, and the `Kv.ModRevision` of each event in
`resp.Events`. -/
structure WatchResp where
  hasErr : Bool
  canceled : Bool
  compactRevision : Int
  events : List Int
deriving DecidableEq, Repr

/-- One firing of the `select` in `checkKVHash` (part_005 lines 144-186):
the context is done, a target revision arrives on `hashKVRevisionChan`, that
channel is closed, the watch channel is closed, or a watch response
arrives. -/
inductive WorkerEvent where
  | ctxDone
  | target (v : Int)
  | targetClosed
  | watchChanClosed
  | watchResp (r : WatchResp)
deriving DecidableEq, Repr

/-- What one `select` arm does: `exit` returns from the function after
reporting `violations`; `next` stays in the inner loop with a new state,
having reported `violations`; `rewatch` is `continue resetWatch`, which
re-opens the watch from `lastRevision + 1`. -/
inductive StepResult where
  | exit (violations : List WorkerViolation)
  | next (s : WorkerState) (violations : List WorkerViolation)
  | rewatch (s : WorkerState)
deriving DecidableEq, Repr

/-- The final check in the `ctx.Done()` arm (part_005 lines 145-152): report
`maxRevisionNotSet` when `maxRevision == 0`, and report the gap when
`lastRevision < maxRevision`; both checks always run before `return`. -/
def onCtxDone (s : WorkerState) : List WorkerViolation :=
  (if s.maxRevision = 0 then [WorkerViolation.maxRevisionNotSet] else []) ++
  (if s.lastRevision < s.maxRevision then
    [WorkerViolation.revisionGap s.lastRevision s.maxRevision] else [])

/-- The `t.Errorf` of part_005 line 178, emitted when the watch response
carries an error that is not a cancellation. -/
def respViolations (r : WatchResp) : List WorkerViolation :=
  if r.hasErr then [WorkerViolation.watchError] else []

/-- Lines 180-182 of part_005: a non-empty event batch advances
`lastRevision` to the last event's `ModRevision`. -/
def applyEvents (s : WorkerState) (r : WatchResp) : WorkerState :=
  if r.events ≠ [] then { s with lastRevision := r.events.getLastD s.lastRevision }
  else s

/-- Lines 180-185 of part_005, reached when the watch response was not a
cancellation: advance `lastRevision` over the events, then `cancel()` when
`maxRevision != 0 && lastRevision >= maxRevision`. -/
def stepEvents (s : WorkerState) (r : WatchResp) : StepResult :=
  let s2 := applyEvents s r
  if s2.maxRevision ≠ 0 ∧ s2.lastRevision ≥ s2.maxRevision then
    StepResult.next { s2 with cancelRequested := true } (respViolations r)
  else
    StepResult.next s2 (respViolations r)

/-- One iteration of the `select` loop of `checkKVHash` (part_005 lines
143-186), one arm per event:
* `ctxDone`: run the final check and return (lines 145-152);
* `target v`: `maxRevision = v`, then `cancel()` when
  `lastRevision >= maxRevision` (lines 153-158);
* `targetClosed`: `cancel()` only when `maxRevision` was never set
  (lines 159-164);
* `watchChanClosed`: `continue resetWatch` (lines 166-169);
* `watchResp r`: when `r` carries an error and is a cancellation, bump
  `lastRevision` to `compactRevision` when the latter is larger and
  `continue resetWatch` (lines 171-177); otherwise report the watch error
  when there is one and process the events (lines 178-185). -/
def step (s : WorkerState) : WorkerEvent → StepResult
  | WorkerEvent.ctxDone => StepResult.exit (onCtxDone s)
  | WorkerEvent.target v =>
    if s.lastRevision ≥ v then
      StepResult.next { s with maxRevision := v, cancelRequested := true } []
    else
      StepResult.next { s with maxRevision := v } []
  | WorkerEvent.targetClosed =>
    if s.maxRevision = 0 then StepResult.next { s with cancelRequested := true } []
    else StepResult.next s []
  | WorkerEvent.watchChanClosed => StepResult.rewatch s
  | WorkerEvent.watchResp r =>
    if r.hasErr && r.canceled then
      StepResult.rewatch
        { s with lastRevision :=
            if r.compactRevision > s.lastRevision then r.compactRevision
            else s.lastRevision }
    else
      stepEvents s r

/-- The revision a re-opened watch starts from: `c.Watch(ctx, "",
lastRevision+1, ...)` at part_005 line 142. -/
def watchStartRevision (s : WorkerState) : Int :=
  s.lastRevision + 1

/-- Whether a worker run has returned. -/
inductive RunOutcome where
  | running (s : WorkerState)
  | exited (s : WorkerState)
deriving DecidableEq, Repr

/-- A whole worker run: process the events in order, accumulating every
reported violation, stopping at the first `exit`. -/
def runWorker (s : WorkerState) : List WorkerEvent → List WorkerViolation × RunOutcome
  | [] => ([], RunOutcome.running s)
  | e :: es =>
    match step s e with
    | StepResult.exit vs => (vs, RunOutcome.exited s)
    | StepResult.next s2 vs => (vs ++ (runWorker s2 es).1, (runWorker s2 es).2)
    | StepResult.rewatch s2 => runWorker s2 es

end Part005

namespace Part005

/-- The receivers that compete for values of the shared
`hashKVRevisionChan` in `ClusterKVHashChecks` (part_005): the distributor
goroutine receives from it at line 118, and every worker goroutine receives
from it as well, because line 108 invokes `checkKVHash(ctx, t, c,
hashKVRevisionChan)` with the shared channel (not with
`memberHashKVRevisionChans[i]`), and `checkKVHash` receives from its fourth
argument at line 153. -/
inductive SharedChanReceiver (n : Nat) where
  | distributor
  | worker (i : Fin n)
deriving DecidableEq, Repr

/-- Go channel semantics: each value sent on a channel is received by
exactly one of the receivers currently receiving from it.  An execution of
the shared channel is therefore an assignment of each stream position to
one receiver; this function collects, in arrival order, the values of
`stream` that worker `w` receives under that execution. -/
def observedFrom (n : Nat) (assign : Nat → SharedChanReceiver n) (w : Fin n) :
    Nat → List Int → List Int
  | _, [] => []
  | k, v :: rest =>
    if assign k = SharedChanReceiver.worker w then
      v :: observedFrom n assign w (k + 1) rest
    else
      observedFrom n assign w (k + 1) rest

/-- The target revisions worker `w` receives over the whole stream, under
the channel wiring of `ClusterKVHashChecks` as written (all workers and the
distributor receiving from the one shared channel). -/
def observedByWorker (n : Nat) (stream : List Int)
    (assign : Nat → SharedChanReceiver n) (w : Fin n) : List Int :=
  observedFrom n assign w 0 stream

end Part005

namespace Part000

/-- Embeds `getHashKV` of part_000 (lines 76-83): issue one `HashKV` probe
and propagate its error.  The RPC itself is the external collaborator
`probe`, indexed by endpoint and requested revision. -/
def getHashKV (probe : Nat → Int → Except GoErr HashKVResp)
    (endpoint : Nat) (rev : Int) : Except GoErr HashKVResp :=
  probe endpoint rev

/-- The member probe loop of part_000 `CheckHashKV` (lines 51-60): probe
each member's first endpoint at `rev`, return an RPC error as-is, return
the `revisionMismatch` error of line 57 when a member's header revision
differs from `rev`, and otherwise accumulate the snapshot.  The first
component is the trace of `(endpoint, revision)` probe calls issued. -/
def probeMembers (probe : Nat → Int → Except GoErr HashKVResp) :
    List Nat → Int → List (Nat × Int) × Except CheckErr (List HashKVResp)
  | [], _ => ([], Except.ok [])
  | m :: rest, rev =>
    match getHashKV probe m rev with
    | Except.error e => ([(m, rev)], Except.error (CheckErr.rpc e))
    | Except.ok h =>
      if h.headerRevision ≠ rev then
        ([(m, rev)], Except.error (CheckErr.revisionMismatch rev h.headerRevision))
      else
        ((m, rev) :: (probeMembers probe rest rev).1,
         (probeMembers probe rest rev).2.map (fun hs => h :: hs))

/-- The comparison loop of part_000 `CheckHashKV` (lines 62-72):
`for i := 1; i < len(clus.Procs); i++` compare `hashKVs[i-1]` with
`hashKVs[i]` on `HashRevision`, then `CompactRevision`, then `Hash`,
returning the error naming the first field that disagrees.  The recursion is
driven by the number of remaining iterations `rem = numProcs - i`; `i` is
the loop index. -/
def comparePairwiseAux (hashKVs : List HashKVResp) : Nat → Nat → Except CheckErr Unit
  | _, 0 => Except.ok ()
  | i, rem + 1 =>
    let a := hashKVs.getD (i - 1) default
    let b := hashKVs.getD i default
    if a.hashRevision ≠ b.hashRevision then Except.error CheckErr.hashRevisionMismatch
    else if a.compactRevision ≠ b.compactRevision then Except.error CheckErr.compactRevisionMismatch
    else if a.hash ≠ b.hash then Except.error CheckErr.hashMismatch
    else comparePairwiseAux hashKVs (i + 1) rem

/-- The comparison loop of part_000 lines 62-72, starting at `i = 1` and
running while `i < numProcs`. -/
def comparePairwiseFrom (hashKVs : List HashKVResp) (numProcs : Nat) :
    Except CheckErr Unit :=
  comparePairwiseAux hashKVs 1 (numProcs - 1)

/-- Embeds `CheckHashKV` of part_000 (lines 29-74).  `clusEndpoint0` is
`clus.EndpointsGRPC()[0]`, `members` are the first endpoints of
`clus.Procs`.  When `rev == 0` (lines 42-49), one probe of `clusEndpoint0`
at revision 0 fixes `rev` to that response's header revision and its
snapshot is prepended to `hashKVs`; then every member is probed at the
fixed `rev` (lines 51-60) and the snapshots compared pairwise (lines
62-72).  The first component is the trace of `(endpoint, revision)` probe
calls issued. -/
def CheckHashKV (probe : Nat → Int → Except GoErr HashKVResp)
    (clusEndpoint0 : Nat) (members : List Nat) (rev : Int) :
    List (Nat × Int) × Except CheckErr Unit :=
  if rev = 0 then
    match getHashKV probe clusEndpoint0 rev with
    | Except.error e => ([(clusEndpoint0, rev)], Except.error (CheckErr.rpc e))
    | Except.ok h =>
      ((clusEndpoint0, rev) :: (probeMembers probe members h.headerRevision).1,
       match (probeMembers probe members h.headerRevision).2 with
       | Except.error e => Except.error e
       | Except.ok hs => comparePairwiseFrom (h :: hs) members.length)
  else
    ((probeMembers probe members rev).1,
     match (probeMembers probe members rev).2 with
     | Except.error e => Except.error e
     | Except.ok hs => comparePairwiseFrom hs members.length)

end Part000

namespace KvhashGo

/-- The probe loops of kvhash.go `CheckHashKV` (lines 33-57 and 60-80):
each member's single gRPC endpoint is probed once at `rev`;
`require.NoError` aborts the pass on any RPC error. -/
def probeAll (probe : Nat → Int → Except GoErr HashKVResp) :
    List Nat → Int → Except GoErr (List HashKVResp)
  | [], _ => Except.ok []
  | m :: rest, rev =>
    match probe m rev with
    | Except.error e => Except.error e
    | Except.ok h => (probeAll probe rest rev).map (fun hs => h :: hs)

/-- The running maximum of kvhash.go lines 54-56: `if maxRevision <
resp[0].Header.Revision { maxRevision = resp[0].Header.Revision }`,
starting from `maxRevision := int64(0)` (line 32). -/
def maxHeaderRevision (hs : List HashKVResp) : Int :=
  hs.foldl (fun acc h => if acc < h.headerRevision then h.headerRevision else acc) 0

/-- The comparison loop of kvhash.go `CheckHashKV` (lines 82-86):
`for i := 1; i < len(clus.Procs); i++` requires `HashKVs[i-1].HashRevision
== HashKVs[i].HashRevision`, `HashKVs[i-1].CompactRevision ==
HashKVs[i].CompactRevision`, and — as written at line 85 —
`HashKVs[i-1].Hash == HashKVs[1].Hash`, the right-hand index being the
fixed literal 1.  `require.Equalf` aborts at the first failure.  The recursion is driven by
the number of remaining iterations `rem = numProcs - i`; `i` is the loop
index. -/
def compareAux (hashKVs : List HashKVResp) : Nat → Nat → Except CheckErr Unit
  | _, 0 => Except.ok ()
  | i, rem + 1 =>
    if (hashKVs.getD (i - 1) default).hashRevision ≠ (hashKVs.getD i default).hashRevision then
      Except.error CheckErr.hashRevisionMismatch
    else if (hashKVs.getD (i - 1) default).compactRevision ≠ (hashKVs.getD i default).compactRevision then
      Except.error CheckErr.compactRevisionMismatch
    else if (hashKVs.getD (i - 1) default).hash ≠ (hashKVs.getD 1 default).hash then
      Except.error CheckErr.hashMismatch
    else compareAux hashKVs (i + 1) rem

/-- The comparison loop of kvhash.go lines 82-86, starting at `i = 1` and
running while `i < numProcs`. -/
def compareFrom (hashKVs : List HashKVResp) (numProcs : Nat) :
    Except CheckErr Unit :=
  compareAux hashKVs 1 (numProcs - 1)

/-- Embeds `CheckHashKV` of kvhash.go (lines 30-87): probe every member at
the caller's `rev` while tracking the maximum header revision seen, set
`rev` to that maximum, re-probe every member at the new `rev`, then run the
comparison loop on the second round of snapshots. -/
def CheckHashKV (probe : Nat → Int → Except GoErr HashKVResp)
    (members : List Nat) (rev : Int) : Except CheckErr Unit :=
  match probeAll probe members rev with
  | Except.error e => Except.error (CheckErr.rpc e)
  | Except.ok hs1 =>
    match probeAll probe members (maxHeaderRevision hs1) with
    | Except.error e => Except.error (CheckErr.rpc e)
    | Except.ok hs2 => compareFrom hs2 members.length

end KvhashGo

namespace Part005

theorem step_exit_eq (s : WorkerState) (e : WorkerEvent) (vs : List WorkerViolation)
    (h : step s e = StepResult.exit vs) : vs = onCtxDone s := by
  cases e with
  | ctxDone => simpa [step] using h.symm
  | target v =>
    simp only [step] at h
    split at h <;> simp at h
  | targetClosed =>
    simp only [step] at h
    split at h <;> simp at h
  | watchChanClosed => simp [step] at h
  | watchResp r =>
    simp only [step] at h
    split at h
    · simp at h
    · simp only [stepEvents] at h
      split at h <;> simp at h

theorem runWorker_exited_decomp (evts : List WorkerEvent) :
    ∀ (s : WorkerState) (vs : List WorkerViolation) (s2 : WorkerState),
    runWorker s evts = (vs, RunOutcome.exited s2) →
    ∃ pre, vs = pre ++ onCtxDone s2 := by
  induction evts with
  | nil =>
    intro s vs s2 h
    simp [runWorker] at h
  | cons e es ih =>
    intro s vs s2 h
    cases hstep : step s e with
    | exit vs0 =>
      simp only [runWorker, hstep, Prod.mk.injEq, RunOutcome.exited.injEq] at h
      obtain ⟨h1, h2⟩ := h
      refine ⟨[], ?_⟩
      rw [← h1, step_exit_eq s e vs0 hstep, h2]
      simp
    | next s1 vs0 =>
      simp only [runWorker, hstep] at h
      cases hr : runWorker s1 es with
      | mk vs1 out =>
        rw [hr] at h
        cases out with
        | running s3 => simp at h
        | exited s3 =>
          simp only [Prod.mk.injEq, RunOutcome.exited.injEq] at h
          obtain ⟨h1, h2⟩ := h
          obtain ⟨pre, hpre⟩ := ih s1 vs1 s3 hr
          refine ⟨vs0 ++ pre, ?_⟩
          rw [← h1, hpre, h2, List.append_assoc]
    | rewatch s1 =>
      simp only [runWorker, hstep] at h
      exact ih s1 vs s2 h

theorem onCtxDone_eq_nil (s : WorkerState) (h : onCtxDone s = []) :
    s.maxRevision ≠ 0 ∧ s.maxRevision ≤ s.lastRevision := by
  rcases eq_or_ne s.maxRevision 0 with h0 | h0
  · simp [onCtxDone, h0] at h
  · rcases lt_or_le s.lastRevision s.maxRevision with h1 | h1
    · simp [onCtxDone, h0, h1] at h
    · exact ⟨h0, h1⟩

theorem onCtxDone_mem_notSet (s : WorkerState) (h : s.maxRevision = 0) :
    WorkerViolation.maxRevisionNotSet ∈ onCtxDone s := by
  simp [onCtxDone, h]

theorem onCtxDone_mem_gap (s : WorkerState) (h : s.lastRevision < s.maxRevision) :
    WorkerViolation.revisionGap s.lastRevision s.maxRevision ∈ onCtxDone s := by
  simp [onCtxDone, h]

theorem runWorker_append_running (xs : List WorkerEvent) :
    ∀ (s s1 : WorkerState) (vs : List WorkerViolation),
    runWorker s xs = (vs, RunOutcome.running s1) →
    ∀ ys, runWorker s (xs ++ ys) = (vs ++ (runWorker s1 ys).1, (runWorker s1 ys).2) := by
  induction xs with
  | nil =>
    intro s s1 vs h ys
    simp only [runWorker, Prod.mk.injEq, RunOutcome.running.injEq] at h
    obtain ⟨h1, h2⟩ := h
    subst h2
    simp [← h1]
  | cons e es ih =>
    intro s s1 vs h ys
    cases hstep : step s e with
    | exit vs0 => simp [runWorker, hstep] at h
    | next s2 vs0 =>
      simp only [runWorker, hstep] at h
      cases hr : runWorker s2 es with
      | mk vs1 out =>
        rw [hr] at h
        cases out with
        | running s3 =>
          simp only [Prod.mk.injEq, RunOutcome.running.injEq] at h
          obtain ⟨h1, h2⟩ := h
          simp only [List.cons_append, runWorker, hstep, List.append_eq]
          rw [ih s2 s3 vs1 hr ys, ← h1, ← h2, List.append_assoc]
        | exited s3 => simp at h
    | rewatch s2 =>
      simp only [runWorker, hstep] at h
      simp only [List.cons_append, runWorker, hstep]
      exact ih s2 s1 vs h ys

end Part005

namespace Part000

theorem probeMembers_all_ok (f : Nat → Int → HashKVResp) (rev : Int) :
    ∀ ms : List Nat, (∀ m ∈ ms, (f m rev).headerRevision = rev) →
    probeMembers (fun e r => Except.ok (f e r)) ms rev =
      (ms.map (fun m => (m, rev)), Except.ok (ms.map (fun m => f m rev))) := by
  intro ms
  induction ms with
  | nil => intro _; simp [probeMembers]
  | cons m rest ih =>
    intro h
    have hm : (f m rev).headerRevision = rev := h m (by simp)
    have hr := ih (fun x hx => h x (List.mem_cons_of_mem m hx))
    simp [probeMembers, getHashKV, hm, hr, Except.map]

theorem probeMembers_fail_fast (f : Nat → Int → HashKVResp) (rev : Int) (mbad : Nat)
    (post : List Nat) (hbad : (f mbad rev).headerRevision ≠ rev) :
    ∀ pre : List Nat, (∀ x ∈ pre, (f x rev).headerRevision = rev) →
    probeMembers (fun e r => Except.ok (f e r)) (pre ++ mbad :: post) rev =
      (pre.map (fun x => (x, rev)) ++ [(mbad, rev)],
       Except.error (CheckErr.revisionMismatch rev (f mbad rev).headerRevision)) := by
  intro pre
  induction pre with
  | nil => intro _; simp [probeMembers, getHashKV, hbad]
  | cons a rest ih =>
    intro h
    have ha : (f a rev).headerRevision = rev := h a (by simp)
    have hr := ih (fun x hx => h x (List.mem_cons_of_mem a hx))
    simp [probeMembers, getHashKV, ha, hr, Except.map]

end Part000

/-- A probe where member 2's hash diverges from everyone else's while all
revisions agree: all members respond with headerRevision 10, hashRevision
10, compactRevision 5, and hash 0xCAFE — except member 2, whose hash is
0xBEEF. -/
def divergentProbe : Nat → Int → Except GoErr HashKVResp := fun m _ =>
  Except.ok
    { hash := if m = 2 then 0xBEEF else 0xCAFE
      hashRevision := 10
      compactRevision := 5
      headerRevision := 10 }

/-- C1: evaluation of the code at the failing input.  The claim says the
comparison loop compares member `i-1` against member `i` on all three
fields, so that a hash divergence on any single member fails the pass.  On
a 3-member cluster where only member 2's hash diverges (0xBEEF vs 0xCAFE),
the kvhash.go `CheckHashKV` succeeds, because line 85 compares
`HashKVs[i-1].Hash` against the fixed `HashKVs[1].Hash` and so never looks
at the last member's hash.  The adjacent-index comparison of part_000
(lines 62-72) does fail the same input naming the hash field. -/
theorem c1_hash_compare_uses_fixed_index :
    KvhashGo.CheckHashKV divergentProbe [0, 1, 2] 10 = Except.ok ()
    ∧ divergentProbe 2 10 ≠ divergentProbe 1 10
    ∧ Part000.CheckHashKV divergentProbe 0 [0, 1, 2] 10 =
        ([(0, 10), (1, 10), (2, 10)], Except.error CheckErr.hashMismatch) := by
  exact ⟨by decide, by decide, by decide⟩

/-- C2: evaluation of the code at the failing input.  In
`ClusterKVHashChecks` as written, line 108 starts every worker on the
shared `hashKVRevisionChan` (instead of that worker's
`memberHashKVRevisionChans[i]`), so the distributor and the workers compete
for each sent value and each target revision is received by exactly one of
them.  Consequently with 2 members and the single target revision 5, under
every possible assignment of the value to a receiver, at least one worker
does not observe the stream `[5]` — refuting the claim that every worker
observes every target revision. -/
theorem c2_workers_compete_on_shared_channel
    (assign : Nat → Part005.SharedChanReceiver 2) :
    Part005.observedByWorker 2 [5] assign 0 ≠ [5]
    ∨ Part005.observedByWorker 2 [5] assign 1 ≠ [5] := by
  cases h : assign 0 with
  | distributor =>
    left
    simp only [Part005.observedByWorker, Part005.observedFrom, h]
    decide
  | worker i =>
    fin_cases i
    · right
      simp only [Part005.observedByWorker, Part005.observedFrom, h]
      decide
    · left
      simp only [Part005.observedByWorker, Part005.observedFrom, h]
      decide

/-- C3 counterexample: a worker externally cancelled before any target
revision was ever delivered (state still `initWorkerState`, `maxRevision =
0`) does report a violation — the `maxRevisionNotSet` error of part_005
line 147 — whereas the claim says such a run ends inconclusive with no
violation reported. -/
theorem c3_never_set_counterexample :
    Part005.runWorker Part005.initWorkerState [Part005.WorkerEvent.ctxDone] =
      ([Part005.WorkerViolation.maxRevisionNotSet],
       Part005.RunOutcome.exited Part005.initWorkerState)
    ∧ [Part005.WorkerViolation.maxRevisionNotSet] ≠ ([] : List Part005.WorkerViolation) := by
  exact ⟨by decide, by decide⟩

/-- C3 amended: on cancellation the worker always performs the final check
of part_005 lines 145-152 before exiting: if no target revision was ever
delivered (`maxRevision` still 0) it reports the `maxRevisionNotSet` error
(rather than ending silently inconclusive), and if the last observed
revision is below the required one it reports the gap naming both
revisions; a pending violation is never silently swallowed by
cancellation. -/
theorem c3_final_check_reports (evts : List Part005.WorkerEvent)
    (vs : List Part005.WorkerViolation) (s2 : Part005.WorkerState)
    (h : Part005.runWorker Part005.initWorkerState evts =
      (vs, Part005.RunOutcome.exited s2)) :
    (s2.maxRevision = 0 → Part005.WorkerViolation.maxRevisionNotSet ∈ vs)
    ∧ (s2.lastRevision < s2.maxRevision →
        Part005.WorkerViolation.revisionGap s2.lastRevision s2.maxRevision ∈ vs) := by
  obtain ⟨pre, hpre⟩ :=
    Part005.runWorker_exited_decomp evts Part005.initWorkerState vs s2 h
  subst hpre
  exact ⟨fun h0 => List.mem_append.mpr (Or.inr (Part005.onCtxDone_mem_notSet s2 h0)),
         fun h1 => List.mem_append.mpr (Or.inr (Part005.onCtxDone_mem_gap s2 h1))⟩

/-- Witness for `c3_final_check_reports`: a run that received target 3,
observed nothing past revision 1 and was then cancelled reports the gap. -/
theorem c3_final_check_reports_witness :
    Part005.WorkerViolation.revisionGap 1 3 ∈
      [Part005.WorkerViolation.revisionGap 1 3] := by
  have h := c3_final_check_reports
    [Part005.WorkerEvent.target 3, Part005.WorkerEvent.ctxDone]
    [Part005.WorkerViolation.revisionGap 1 3]
    { maxRevision := 3, lastRevision := 1, cancelRequested := false }
    (by decide)
  exact h.2 (by decide)

/-- A reader whose single read call always fails with a non-nil error. -/
def failingReader : Rafthttp.ReaderModel Unit :=
  { read := fun _ s => (([], some (GoErr.msg "boom")), s)
    close := fun s => (none, s) }

/-- C4 counterexample: with the `DemoDropRequestBodyFailPoint` armed, a
read over an underlying reader that fails returns that underlying error to
the handler — `discardReadData` (part_005 line 54) returns `0, err` with
the original error — whereas the claim says an armed read reports no read
error to the handler. -/
theorem c4_armed_read_error_counterexample :
    Rafthttp.hijackedRead true (some failingReader) 4 () =
      some (([], some (GoErr.msg "boom")), ())
    ∧ some (GoErr.msg "boom") ≠ (none : Option GoErr) := by
  exact ⟨rfl, by decide⟩

/-- C4 amended: while the drop failpoint is armed, a Read of `n` bytes
issues one underlying read with a fresh `n`-byte buffer (advancing the
underlying stream exactly as a direct read would) and delivers zero bytes
to the handler together with the underlying read's error verbatim — so no
error exactly when the underlying read succeeds; an armed response Write
returns `(0, nil)` and an armed WriteHeader returns, with nothing reaching
the underlying writer. -/
theorem c4_armed_wrappers_drop {σ ω : Type} (rc : Rafthttp.ReaderModel σ)
    (n : Nat) (s : σ) (orig : Option (Rafthttp.WriterModel ω)) (p : List Nat)
    (code : Int) (w : ω) :
    Rafthttp.hijackedRead true (some rc) n s =
      some (([], (rc.read n s).1.2), (rc.read n s).2)
    ∧ Rafthttp.hijackedWrite true orig p w = ((0, none), w)
    ∧ Rafthttp.hijackedWriteHeader true orig code w = w := by
  exact ⟨rfl, rfl, rfl⟩

/-- A member response whose header revision, 12, lags behind the requested
revision 10, while hash, hashRevision and compactRevision agree across all
members. -/
def laggingResp : HashKVResp :=
  { hash := 7, hashRevision := 9, compactRevision := 2, headerRevision := 12 }

/-- A probe on which every member answers `laggingResp`, whatever endpoint
or revision is asked. -/
def laggingProbe : Nat → Int → Except GoErr HashKVResp := fun _ _ =>
  Except.ok laggingResp

/-- C5 counterexample: the kvhash.go `CheckHashKV` (lines 30-80), called
with the nonzero revision 10 on a cluster where every probed member's
header revision is 12 ≠ 10, completes successfully — it has no
header-revision fail-fast at all (it silently re-normalizes `rev` to the
maximum header revision seen, line 59, and re-probes) — whereas the claim
says any probed member whose headerRevision differs from the requested
revision makes the pass fail fast with an RPCFailure before any hash
comparison. -/
theorem c5_no_fail_fast_counterexample :
    KvhashGo.CheckHashKV laggingProbe [0, 1, 2] 10 = Except.ok ()
    ∧ laggingProbe 0 10 = Except.ok laggingResp
    ∧ laggingResp.headerRevision ≠ 10 := by
  exact ⟨by decide, by decide, by decide⟩

/-- C5 amended, proved of the part_000 `CheckHashKV` (the variant that
implements the claim; the kvhash.go variant has no fail-fast, see the
counterexample).  First conjunct: called with revision 0, the pass first
probes one member (`clus.EndpointsGRPC()[0]`) at revision 0 and then
probes every member at the fixed revision learned from that response's
header.  Second conjunct: called with a nonzero revision, it probes every
member at exactly that revision.  Third conjunct (nonzero revision) and
fourth conjunct (revision 0): in either case, if some probed member's
header revision differs from the fixed requested revision, the pass stops
at that member (members after it are not probed) and returns the
revision-mismatch RPC failure of line 57 — not any of the hash-comparison
errors, whatever the hash fields are. -/
theorem c5_revision_normalization :
    (∀ (f : Nat → Int → HashKVResp) (ep0 : Nat) (members : List Nat),
      (∀ m ∈ members,
        (f m ((f ep0 0).headerRevision)).headerRevision = (f ep0 0).headerRevision) →
      (Part000.CheckHashKV (fun e r => Except.ok (f e r)) ep0 members 0).1 =
        (ep0, 0) :: members.map (fun m => (m, (f ep0 0).headerRevision)))
    ∧ (∀ (f : Nat → Int → HashKVResp) (ep0 : Nat) (members : List Nat) (rev : Int),
      rev ≠ 0 → (∀ m ∈ members, (f m rev).headerRevision = rev) →
      (Part000.CheckHashKV (fun e r => Except.ok (f e r)) ep0 members rev).1 =
        members.map (fun m => (m, rev)))
    ∧ (∀ (f : Nat → Int → HashKVResp) (ep0 mbad : Nat) (pre post : List Nat) (rev : Int),
      rev ≠ 0 → (∀ x ∈ pre, (f x rev).headerRevision = rev) →
      (f mbad rev).headerRevision ≠ rev →
      Part000.CheckHashKV (fun e r => Except.ok (f e r)) ep0 (pre ++ mbad :: post) rev =
        (pre.map (fun x => (x, rev)) ++ [(mbad, rev)],
         Except.error (CheckErr.revisionMismatch rev (f mbad rev).headerRevision)))
    ∧ (∀ (f : Nat → Int → HashKVResp) (ep0 mbad : Nat) (pre post : List Nat),
      (∀ x ∈ pre,
        (f x ((f ep0 0).headerRevision)).headerRevision = (f ep0 0).headerRevision) →
      (f mbad ((f ep0 0).headerRevision)).headerRevision ≠ (f ep0 0).headerRevision →
      Part000.CheckHashKV (fun e r => Except.ok (f e r)) ep0 (pre ++ mbad :: post) 0 =
        ((ep0, 0) ::
          (pre.map (fun x => (x, (f ep0 0).headerRevision)) ++
            [(mbad, (f ep0 0).headerRevision)]),
         Except.error (CheckErr.revisionMismatch (f ep0 0).headerRevision
           (f mbad ((f ep0 0).headerRevision)).headerRevision))) := by
  refine ⟨?_, ?_, ?_, ?_⟩
  · intro f ep0 members h
    simp [Part000.CheckHashKV, Part000.getHashKV,
      Part000.probeMembers_all_ok f ((f ep0 0).headerRevision) members h]
  · intro f ep0 members rev hrev h
    simp [Part000.CheckHashKV, hrev,
      Part000.probeMembers_all_ok f rev members h]
  · intro f ep0 mbad pre post rev hrev hpre hbad
    simp [Part000.CheckHashKV, hrev,
      Part000.probeMembers_fail_fast f rev mbad post hbad pre hpre]
  · intro f ep0 mbad pre post hpre hbad
    simp [Part000.CheckHashKV, Part000.getHashKV,
      Part000.probeMembers_fail_fast f ((f ep0 0).headerRevision) mbad post hbad pre hpre]

/-- A probe that echoes the requested revision in the header, reporting
header revision 10 when asked for revision 0 (the "current maximum"). -/
def probeEcho : Nat → Int → HashKVResp := fun _ r =>
  { hash := 7, hashRevision := 9, compactRevision := 2,
    headerRevision := if r = 0 then 10 else r }

/-- A probe where member 2 lags: its header revision is 99 instead of the
requested revision. -/
def probeStale : Nat → Int → HashKVResp := fun m r =>
  { hash := 7, hashRevision := 9, compactRevision := 2,
    headerRevision := if m = 2 then 99 else r }

/-- A probe where member 2 lags (header revision 99) and every other
member echoes the requested revision, reporting header revision 10 when
asked for revision 0. -/
def probeStaleEcho : Nat → Int → HashKVResp := fun m r =>
  { hash := 7, hashRevision := 9, compactRevision := 2,
    headerRevision := if m = 2 then 99 else if r = 0 then 10 else r }

/-- Witness for `c5_revision_normalization` at concrete probes and member
lists. -/
theorem c5_revision_normalization_witness :
    (Part000.CheckHashKV (fun e r => Except.ok (probeEcho e r)) 0 [1, 2] 0).1 =
      [(0, 0), (1, 10), (2, 10)]
    ∧ (Part000.CheckHashKV (fun e r => Except.ok (probeEcho e r)) 0 [1, 2] 10).1 =
      [(1, 10), (2, 10)]
    ∧ Part000.CheckHashKV (fun e r => Except.ok (probeStale e r)) 0 ([1] ++ 2 :: [3]) 10 =
      ([(1, 10), (2, 10)], Except.error (CheckErr.revisionMismatch 10 99))
    ∧ Part000.CheckHashKV (fun e r => Except.ok (probeStaleEcho e r)) 0 ([1] ++ 2 :: [3]) 0 =
      ([(0, 0), (1, 10), (2, 10)], Except.error (CheckErr.revisionMismatch 10 99)) := by
  refine ⟨?_, ?_, ?_, ?_⟩
  · have h := c5_revision_normalization.1 probeEcho 0 [1, 2] (by decide)
    exact h.trans (by decide)
  · have h := c5_revision_normalization.2.1 probeEcho 0 [1, 2] 10 (by decide) (by decide)
    exact h.trans (by decide)
  · have h := c5_revision_normalization.2.2.1 probeStale 0 2 [1] [3] 10
      (by decide) (by decide) (by decide)
    exact h.trans (by decide)
  · have h := c5_revision_normalization.2.2.2 probeStaleEcho 0 2 [1] [3]
      (by decide) (by decide)
    exact h.trans (by decide)

/-- C6 counterexample: a worker whose `maxRevision` is 10 that receives
target revision 5 ends with `maxRevision = 5` — part_005 line 155 is a
plain assignment — whereas the claim says the new value is
`max(previous, v) = 10`. -/
theorem c6_target_assignment_counterexample :
    Part005.step { maxRevision := 10, lastRevision := 1, cancelRequested := false }
        (Part005.WorkerEvent.target 5) =
      Part005.StepResult.next
        { maxRevision := 5, lastRevision := 1, cancelRequested := false } []
    ∧ (5 : Int) ≠ max 10 5 := by
  exact ⟨by decide, by decide⟩

/-- C6 amended: on receiving target revision `v` the worker sets
`maxRevision` to `v` unconditionally (so a target smaller than the current
maximum does lower it), and requests cancellation exactly when
`lastRevision ≥ v`; nothing else in the state changes and no violation is
reported. -/
theorem c6_target_overwrites_max (evts : List Part005.WorkerEvent)
    (s : Part005.WorkerState) (vs : List Part005.WorkerViolation) (v : Int)
    (h : Part005.runWorker Part005.initWorkerState evts =
      (vs, Part005.RunOutcome.running s)) :
    Part005.runWorker Part005.initWorkerState
        (evts ++ [Part005.WorkerEvent.target v]) =
      (vs, Part005.RunOutcome.running
        (if s.lastRevision ≥ v then
          { s with maxRevision := v, cancelRequested := true }
        else { s with maxRevision := v })) := by
  rw [Part005.runWorker_append_running evts Part005.initWorkerState s vs h
    [Part005.WorkerEvent.target v]]
  by_cases hc : s.lastRevision ≥ v <;>
    simp [Part005.runWorker, Part005.step, hc]

/-- Witness for `c6_target_overwrites_max`: the very first received target
revision 5 sets `maxRevision` from 0 to 5. -/
theorem c6_target_overwrites_max_witness :
    Part005.runWorker Part005.initWorkerState [Part005.WorkerEvent.target 5] =
      ([], Part005.RunOutcome.running
        { maxRevision := 5, lastRevision := 1, cancelRequested := false }) := by
  have h := c6_target_overwrites_max [] Part005.initWorkerState [] 5 (by decide)
  exact h.trans (by decide)

/-- C7: a worker run that exits with no violation reported at all (Done,
milestone reached) necessarily has `maxRevision` set and `lastRevision ≥
maxRevision` in its final state: the final check of part_005 lines 145-152
guards every exit, so the Done state is reachable only at the milestone. -/
theorem c7_done_requires_milestone (evts : List Part005.WorkerEvent)
    (s2 : Part005.WorkerState)
    (h : Part005.runWorker Part005.initWorkerState evts =
      ([], Part005.RunOutcome.exited s2)) :
    s2.maxRevision ≠ 0 ∧ s2.maxRevision ≤ s2.lastRevision := by
  obtain ⟨pre, hpre⟩ :=
    Part005.runWorker_exited_decomp evts Part005.initWorkerState [] s2 h
  have hnil : Part005.onCtxDone s2 = [] := (List.append_eq_nil.mp hpre.symm).2
  exact Part005.onCtxDone_eq_nil s2 hnil

/-- Witness for `c7_done_requires_milestone`: a run that received target 3,
observed an event batch up to revision 4 and was then cancelled exits with
no violation, and indeed 3 ≠ 0 and 3 ≤ 4. -/
theorem c7_done_requires_milestone_witness : (3 : Int) ≠ 0 ∧ (3 : Int) ≤ 4 := by
  have h := c7_done_requires_milestone
    [Part005.WorkerEvent.target 3,
     Part005.WorkerEvent.watchResp
       { hasErr := false, canceled := false, compactRevision := 0, events := [4] },
     Part005.WorkerEvent.ctxDone]
    { maxRevision := 3, lastRevision := 4, cancelRequested := true }
    (by decide)
  exact h

/-- C8: a watch response that is a cancellation carrying compaction
revision `c` makes the worker set `lastRevision` to `max lastRevision c`
and re-enter watching from `lastRevision + 1`, reporting no violation
(part_005 lines 171-177 and 142); in particular a subscription cancelled at
observed revision 8 with compaction revision 6 resumes from revision 9. -/
theorem c8_compaction_cancel_recovery (s : Part005.WorkerState) (c : Int)
    (evs : List Int) :
    Part005.step s (Part005.WorkerEvent.watchResp
        { hasErr := true, canceled := true, compactRevision := c, events := evs }) =
      Part005.StepResult.rewatch { s with lastRevision := max s.lastRevision c }
    ∧ Part005.watchStartRevision { s with lastRevision := max s.lastRevision c } =
        max s.lastRevision c + 1
    ∧ Part005.step { maxRevision := 20, lastRevision := 8, cancelRequested := false }
        (Part005.WorkerEvent.watchResp
          { hasErr := true, canceled := true, compactRevision := 6, events := [] }) =
        Part005.StepResult.rewatch
          { maxRevision := 20, lastRevision := 8, cancelRequested := false }
    ∧ Part005.watchStartRevision
        { maxRevision := 20, lastRevision := 8, cancelRequested := false } = 9 := by
  have hmax : (if c > s.lastRevision then c else s.lastRevision) = max s.lastRevision c := by
    rcases le_or_lt c s.lastRevision with hle | hlt
    · rw [if_neg (not_lt.mpr hle), max_eq_left hle]
    · rw [if_pos hlt, max_eq_right (le_of_lt hlt)]
  refine ⟨?_, rfl, by decide, by decide⟩
  simp [Part005.step, hmax]

/-- C9: while the failpoints are disarmed, each hijacked wrapper is
observationally identical to the unwrapped primitive: Read returns exactly
the underlying read's bytes, count and error; Write and WriteHeader
delegate unchanged; Flush delegates to the underlying flush capability
when present. -/
theorem c9_disarmed_passthrough {σ ω : Type} (rc : Rafthttp.ReaderModel σ)
    (n : Nat) (s : σ) (wr : Rafthttp.WriterModel ω) (p : List Nat)
    (code : Int) (w : ω) :
    Rafthttp.hijackedRead false (some rc) n s = some (rc.read n s)
    ∧ Rafthttp.hijackedWrite false (some wr) p w = wr.write p w
    ∧ Rafthttp.hijackedWriteHeader false (some wr) code w = wr.writeHeader code w
    ∧ Rafthttp.hijackedFlush (some wr) w = wr.flusher.map (fun f => f w) := by
  refine ⟨rfl, rfl, rfl, ?_⟩
  cases hf : wr.flusher with
  | none => simp [Rafthttp.hijackedFlush, hf]
  | some f => simp [Rafthttp.hijackedFlush, hf]

/-- C10: over an absent (`nil`) underlying stream, each hijacked method
other than Flush is total and non-failing: Read returns 0 bytes and no
error, Close returns no error, Write returns 0 bytes and no error, and
WriteHeader is a no-op. -/
theorem c10_nil_delegate_total {σ ω : Type} (n : Nat) (s : σ) (p : List Nat)
    (code : Int) (w : ω) :
    Rafthttp.hijackedRead false (none : Option (Rafthttp.ReaderModel σ)) n s =
      some (([], none), s)
    ∧ Rafthttp.hijackedClose (none : Option (Rafthttp.ReaderModel σ)) s = (none, s)
    ∧ Rafthttp.hijackedWrite false (none : Option (Rafthttp.WriterModel ω)) p w =
      ((0, none), w)
    ∧ Rafthttp.hijackedWriteHeader false (none : Option (Rafthttp.WriterModel ω)) code w = w := by
  exact ⟨rfl, rfl, rfl, rfl⟩

